import Mathlib

/-!
Verification of the veil-protocol program (programs/veil-protocol/src/lib.rs).

The development shallowly embeds the program's data model and instruction
handlers in Lean. Bytes are modelled as `Nat` (with explicit range
hypotheses where a claim depends on byte semantics), byte strings as
`List Nat`, account keys as 32-byte lists, timestamps as `Int`, and
`u32`/`u8` counters as `Nat` with checked increments that abort the
transaction on overflow (the Anchor build enables overflow checks, so an
overflowing add panics and the whole transaction reverts).

Each instruction handler is a pure function from the pre-state and the
instruction arguments to `Except VeilError post-state`; returning
`.error e` models the transaction aborting with error `e` and no state
change (Solana transactions are atomic, a failed instruction commits
nothing). Anchor account constraints run before the instruction body:
an `init` account that already exists aborts with the system
"account already in use" error before any body check, which we model as
the first guard of the corresponding handler.

The hash used throughout the source is Keccak-256
(`anchor_lang::solana_program::keccak`); it is implemented here
concretely on byte lists.
-/

set_option maxRecDepth 8000

namespace Veil

/-! ### Keccak-256 -/

/-- 2^64, the lane modulus of Keccak-f[1600]. -/
def n64 : Nat := 18446744073709551616

/-- Rotate a 64-bit lane left by `n` bits. -/
def rol64 (x n : Nat) : Nat := ((x <<< n) % n64) ||| (x >>> (64 - n))

/-- One step of the degree-8 LFSR of FIPS 202 section 3.2.5 that
generates the iota round-constant bits. -/
def lfsrStep (r : Nat) : Nat :=
  if r &&& 128 = 128 then ((r <<< 1) ^^^ 0x71) &&& 255 else (r <<< 1) &&& 255

/-- The LFSR register after `t` steps from the initial value 1; the
round-constant bit rc(t) is its low bit. -/
def lfsrState (t : Nat) : Nat := lfsrStep^[t] 1

/-- Keccak-f[1600] round constants: bit `2^j - 1` of constant `i` is
rc(7i + j). -/
def keccakRC : List Nat :=
  (List.range 24).map fun i =>
    (List.range 7).foldl (fun acc j => acc + ((lfsrState (7 * i + j) &&& 1) <<< (2 ^ j - 1))) 0

/-- Keccak rho rotation offsets, indexed by `x + 5 * y`: walk the pi
permutation from (1, 0) writing the triangular numbers mod 64. -/
def keccakRho : List Nat :=
  ((List.range 24).foldl (fun st t =>
    ((st.1.2, (2 * st.1.1 + 3 * st.1.2) % 5),
      st.2.set (st.1.1 + 5 * st.1.2) ((t + 1) * (t + 2) / 2 % 64)))
    ((1, 0), List.replicate 25 0)).2

/-- Keccak theta step on a 25-lane state. -/
def thetaStep (s : List Nat) : List Nat :=
  let c := (List.range 5).map fun x =>
    (s.getD x 0) ^^^ (s.getD (x+5) 0) ^^^ (s.getD (x+10) 0) ^^^ (s.getD (x+15) 0) ^^^ (s.getD (x+20) 0)
  let d := (List.range 5).map fun x =>
    (c.getD ((x+4) % 5) 0) ^^^ rol64 (c.getD ((x+1) % 5) 0) 1
  (List.range 25).map fun i => (s.getD i 0) ^^^ (d.getD (i % 5) 0)

/-- Keccak rho and pi steps combined. -/
def rhoPiStep (s : List Nat) : List Nat :=
  (List.range 25).map fun i =>
    let xx := i % 5
    let yy := i / 5
    let ax := (xx + 3 * yy) % 5
    let ay := xx
    rol64 (s.getD (ax + 5 * ay) 0) (keccakRho.getD (ax + 5 * ay) 0)

/-- Keccak chi step. -/
def chiStep (s : List Nat) : List Nat :=
  (List.range 25).map fun i =>
    let xx := i % 5
    let yy := i / 5
    (s.getD i 0) ^^^ (((s.getD ((xx+1) % 5 + 5*yy) 0) ^^^ (n64 - 1)) &&& (s.getD ((xx+2) % 5 + 5*yy) 0))

/-- One Keccak round: theta, rho, pi, chi, iota. -/
def keccakRound (s : List Nat) (rc : Nat) : List Nat :=
  let t := chiStep (rhoPiStep (thetaStep s))
  t.set 0 ((t.getD 0 0) ^^^ rc)

/-- The full Keccak-f[1600] permutation (24 rounds). -/
def keccakP (s : List Nat) : List Nat := keccakRC.foldl keccakRound s

/-- Interpret up to 8 bytes as a little-endian 64-bit lane. -/
def laneLE (bytes : List Nat) : Nat := bytes.foldr (fun b acc => acc * 256 + b) 0

/-- Serialize a 64-bit lane as 8 little-endian bytes. -/
def laneBytes (x : Nat) : List Nat := (List.range 8).map fun k => (x >>> (8*k)) % 256

/-- Absorb one 136-byte rate block into the state and permute. -/
def absorbBlock (s : List Nat) (block : List Nat) : List Nat :=
  let t := (List.range 25).map fun i =>
    if i < 17 then (s.getD i 0) ^^^ laneLE ((block.drop (8*i)).take 8) else s.getD i 0
  keccakP t

/-- Split a byte list into 136-byte blocks (fueled recursion). -/
def chunksAux : Nat → List Nat → List (List Nat)
  | 0, _ => []
  | _+1, [] => []
  | n+1, l => l.take 136 :: chunksAux n (l.drop 136)

/-- Keccak pad10*1 padding with the original Keccak domain byte 0x01. -/
def keccakPad (msg : List Nat) : List Nat :=
  let r := 136 - msg.length % 136
  if r = 1 then msg ++ [0x81]
  else msg ++ 0x01 :: (List.replicate (r - 2) 0 ++ [0x80])

/-- Keccak-256 of a byte list, as used by `solana_program::keccak::hash`. -/
def keccak256 (msg : List Nat) : List Nat :=
  let p := keccakPad msg
  let s := (chunksAux (p.length / 136 + 1) p).foldl absorbBlock (List.replicate 25 0)
  ((s.take 4).map laneBytes).flatten

/-! ### Byte-string helpers and field-element check -/

/-- The all-zero 32-byte string. -/
def zero32 : List Nat := List.replicate 32 0

/-- Little-endian bytes of a `u16` (`u16::to_le_bytes`). -/
def le2 (n : Nat) : List Nat := [n % 256, n / 256 % 256]

/-- Little-endian bytes of a `u32` (`u32::to_le_bytes`). -/
def le4 (n : Nat) : List Nat :=
  [n % 256, n / 256 % 256, n / 65536 % 256, n / 16777216 % 256]

/-- Little-endian bytes of an `i64` (`i64::to_le_bytes`, two's complement). -/
def le8i (t : Int) : List Nat :=
  (List.range 8).map fun k => ((t % (18446744073709551616 : Int)).toNat >>> (8*k)) % 256

/-- BN128 scalar-field modulus, big-endian, from the source constant
`BN128_MODULUS`. -/
def BN128_MODULUS : List Nat :=
  [0x30, 0x64, 0x4e, 0x72, 0xe1, 0x31, 0xa0, 0x29,
   0xb8, 0x50, 0x45, 0xb6, 0x81, 0x81, 0x58, 0x5d,
   0x97, 0x81, 0x6a, 0x91, 0x68, 0x71, 0xca, 0x8d,
   0x3c, 0x20, 0x8c, 0x16, 0xd8, 0x7c, 0xfd, 0x47]

/-- Byte-wise lexicographic strict comparison, returning `false` when the
lists are equal; this is the loop body of `verify_field_element`. -/
def lexLtBytes : List Nat → List Nat → Bool
  | a :: as, b :: bs => if a < b then true else if b < a then false else lexLtBytes as bs
  | _, _ => false

/-- `verify_field_element` from the source: a 32-byte value is a valid
field element iff it compares strictly below `BN128_MODULUS` byte-wise
(equality is invalid); any other length is invalid. -/
def verify_field_element (value : List Nat) : Bool :=
  if value.length = 32 then lexLtBytes value BN128_MODULUS else false

/-- Big-endian integer value of a byte string. -/
def beNat (l : List Nat) : Nat := l.foldl (fun acc b => acc * 256 + b) 0

/-! ### Cryptographic helper functions from the source -/

/-- `compute_proof_hash`: keccak of the proof data followed by all public
signals. -/
def compute_proof_hash (proof_data : List Nat) (public_signals : List (List Nat)) : List Nat :=
  keccak256 (proof_data ++ public_signals.flatten)

/-- `hash_public_signals`: keccak of the concatenated public signals. -/
def hash_public_signals (signals : List (List Nat)) : List Nat :=
  keccak256 signals.flatten

/-- `compute_vote_commitment`: keccak of the choice byte (1 for yes, 0 for
no), the 32-byte secret, and the voter pubkey bytes. -/
def compute_vote_commitment (vote_choice : Bool) (secret : List Nat) (voter : List Nat) : List Nat :=
  keccak256 ((if vote_choice then [1] else [0]) ++ secret ++ voter)

/-- `verify_range_proof` from the source: structural checks (non-zero
commitment, length at least 64, non-zero first 32 proof bytes) and a
hash-liveness test on keccak of commitment followed by proof. -/
def verify_range_proof (commitment : List Nat) (proof : List Nat) : Bool :=
  if commitment = zero32 then false
  else if proof.length < 64 then false
  else
    let first32sum := (proof.take 32).foldl (· + ·) 0
    if first32sum = 0 then false
    else
      let h := keccak256 (commitment ++ proof)
      decide (h.getD 0 0 ≠ 0) || decide (h.getD 1 0 ≠ 0)

/-- `insert_note_to_merkle_tree`: the new root is the keccak hash of the
current root, the note commitment, and the little-endian index bytes. -/
def insert_note_to_merkle_tree (current_root note_commitment : List Nat) (note_index : Nat) : List Nat :=
  keccak256 (current_root ++ note_commitment ++ le4 note_index)

/-- `verify_merkle_proof`: fold the 8 sibling hashes over the leaf, taking
left or right order from bit `i` of `path_indices`, and compare with the
root. -/
def verify_merkle_proof (root : List Nat) (proof : List (List Nat)) (path_indices : Nat)
    (leaf_hash : List Nat) : Bool :=
  let final := (List.range 8).foldl (fun current i =>
    let sibling := proof.getD i zero32
    if (path_indices >>> i) % 2 = 1 then keccak256 (sibling ++ current)
    else keccak256 (current ++ sibling)) leaf_hash
  decide (final = root)

/-- `verify_withdrawal_proof`: Groth16-shaped structural checks (length,
field elements of pi_a and pi_c) plus a hash-liveness test. -/
def verify_withdrawal_proof (nullifier output_commitment merkle_root : List Nat)
    (proof : List Nat) : Bool :=
  if proof.length < 256 then false
  else
    let pi_a := proof.take 64
    let pi_c := (proof.drop 192).take 64
    if !(verify_field_element (pi_a.take 32) && verify_field_element ((pi_a.drop 32).take 32)) then
      false
    else if !(verify_field_element (pi_c.take 32) && verify_field_element ((pi_c.drop 32).take 32)) then
      false
    else
      let h := keccak256 (nullifier ++ output_commitment ++ merkle_root ++ proof)
      decide (h.getD 0 0 ≠ 0xFF)

/-- `verify_reward_proof`: length check plus hash-liveness over nullifier,
new note commitment, reward rate, current time and proof bytes. -/
def verify_reward_proof (stake_nullifier new_note_commitment : List Nat)
    (reward_rate_bps : Nat) (current_time : Int) (proof : List Nat) : Bool :=
  if proof.length < 256 then false
  else
    let h := keccak256 (stake_nullifier ++ new_note_commitment ++ le2 reward_rate_bps ++
      le8i current_time ++ proof)
    decide (h.getD 0 0 ≠ 0xFF)

/-! ### Errors -/

/-- Typed errors: the program's `ErrorCode` variants that the embedded
handlers can raise, plus the runtime aborts that surface through the
surrounding environment (an `init` constraint hitting an existing
account, a lookup of a missing account, a checked-arithmetic abort). -/
inductive VeilError where
  | InvalidProof
  | RecoveryAlreadyActive
  | NoActiveRecovery
  | TimelockNotExpired
  | InvalidTimelockPeriod
  | Unauthorized
  | InvalidVotingPeriod
  | InvalidRevealPeriod
  | VotingEnded
  | AlreadyVoted
  | VotingNotEnded
  | RevealEnded
  | NotVoted
  | AlreadyRevealed
  | InvalidVoteReveal
  | RevealNotEnded
  | AlreadyFinalized
  | InvalidThreshold
  | TooManySigners
  | ProposalAlreadyExecuted
  | ThresholdReached
  | InvalidSignerProof
  | DuplicateApproval
  | InsufficientApprovals
  | InvalidRewardRate
  | InvalidLockupPeriod
  | PoolNotActive
  | PoolFull
  | InvalidRangeProof
  | NullifierAlreadyUsed
  | InvalidMerkleProof
  | InvalidWithdrawalProof
  | InvalidProofStructure
  | InvalidProofPoint
  | InvalidPublicSignal
  | CommitmentMismatch
  | InvalidProofHash
  | InvalidRewardProof
  | AccountAlreadyInUse
  | AccountNotFound
  | ArithmeticOverflow
deriving DecidableEq, Repr

/-- The spec's StateConflict error kind: duplicate vote, approval or
nullifier, already-executed, already-finalized, pool full. The failed
`init` on an existing PDA (`AccountAlreadyInUse`) is the double-spend
conflict for nullifier records. -/
def isStateConflict : VeilError → Bool
  | .AccountAlreadyInUse | .NullifierAlreadyUsed | .AlreadyVoted | .AlreadyRevealed
  | .DuplicateApproval | .ProposalAlreadyExecuted | .AlreadyFinalized | .PoolFull => true
  | _ => false

/-- The spec's StructuralValidation error kind: malformed or undersized
proof or commitment, invalid field element, commitment binding mismatch. -/
def isStructuralValidation : VeilError → Bool
  | .InvalidProof | .InvalidProofStructure | .InvalidProofPoint | .InvalidPublicSignal
  | .CommitmentMismatch | .InvalidProofHash | .InvalidRangeProof | .InvalidMerkleProof
  | .InvalidWithdrawalProof | .InvalidRewardProof | .InvalidSignerProof => true
  | _ => false

/-! ### Keyed record stores

Durable accounts keyed by PDA seeds are modelled as association lists.
`findRec` is account lookup, `setRec` is an in-place account write, and
appending is account creation. -/

/-- Look up the record stored at key `k`. -/
def findRec {K V : Type} [DecidableEq K] : List (K × V) → K → Option V
  | [], _ => none
  | p :: l, k => if p.1 = k then some p.2 else findRec l k

/-- Overwrite the record stored at key `k` with `v`. -/
def setRec {K V : Type} [DecidableEq K] : List (K × V) → K → V → List (K × V)
  | [], _, _ => []
  | p :: l, k, v => if p.1 = k then (k, v) :: setRec l k v else p :: setRec l k v

/-- Checked `u32` increment: Anchor builds with overflow checks, so an
overflowing `+= 1` panics and aborts the transaction. -/
def u32inc (n : Nat) : Except VeilError Nat :=
  if n + 1 < 4294967296 then .ok (n + 1) else .error .ArithmeticOverflow

instance {e a : Type} [DecidableEq e] [DecidableEq a] : DecidableEq (Except e a) := fun x y =>
  match x, y with
  | .ok u, .ok v =>
    if h : u = v then isTrue (by rw [h]) else isFalse (by intro hh; cases hh; exact h rfl)
  | .error u, .error v =>
    if h : u = v then isTrue (by rw [h]) else isFalse (by intro hh; cases hh; exact h rfl)
  | .ok _, .error _ => isFalse (by intro hh; cases hh)
  | .error _, .ok _ => isFalse (by intro hh; cases hh)

/-! ### Identity and recovery (`WalletAccount`) -/

/-- `WalletAccount` from the source (bump omitted: it is PDA metadata). -/
structure WalletAccount where
  commitment : List Nat
  owner : List Nat
  created_at : Int
  recovery_commitment : List Nat
  recovery_active : Bool
  recovery_initiated_at : Int
  recovery_unlock_at : Int
  recovery_executed_at : Int
deriving DecidableEq, Repr

/-- `submit_proof`: structural Groth16 checks, field-element checks on
pi_a, pi_c and every public signal, binding of the first signal to the
wallet commitment, and a non-zero proof hash. The handler mutates no
account; it only emits an audit event on success. -/
def submit_proof (wallet : WalletAccount) (proof_data : List Nat)
    (public_signals : List (List Nat)) : Except VeilError Unit :=
  if proof_data.length < 256 then .error .InvalidProofStructure
  else if public_signals.length < 1 then .error .InvalidProof
  else
    let pi_a := proof_data.take 64
    let pi_c := (proof_data.drop 192).take 64
    if !(verify_field_element (pi_a.take 32) && verify_field_element ((pi_a.drop 32).take 32)) then
      .error .InvalidProofPoint
    else if !(verify_field_element (pi_c.take 32) && verify_field_element ((pi_c.drop 32).take 32)) then
      .error .InvalidProofPoint
    else if public_signals.any (fun s => !(verify_field_element s)) then
      .error .InvalidPublicSignal
    else if public_signals.getD 0 zero32 ≠ wallet.commitment then
      .error .CommitmentMismatch
    else if compute_proof_hash proof_data public_signals = zero32 then
      .error .InvalidProofHash
    else .ok ()

/-- `initiate_recovery`: requires no active recovery and a timelock of 1
to 90 days; sets the unlock time to now plus days times 86400 seconds. -/
def initiate_recovery (w : WalletAccount) (recovery_commitment : List Nat)
    (timelock_days : Nat) (now : Int) : Except VeilError WalletAccount :=
  if w.recovery_active then .error .RecoveryAlreadyActive
  else if !(1 ≤ timelock_days && timelock_days ≤ 90) then .error .InvalidTimelockPeriod
  else .ok { w with
    recovery_commitment := recovery_commitment
    recovery_initiated_at := now
    recovery_unlock_at := now + (timelock_days : Int) * 86400
    recovery_active := true }

/-- `execute_recovery`: requires an active recovery, an expired timelock
and a non-empty proof; clears the active flag. -/
def execute_recovery (w : WalletAccount) (recovery_proof : List Nat)
    (now : Int) : Except VeilError WalletAccount :=
  if !w.recovery_active then .error .NoActiveRecovery
  else if now < w.recovery_unlock_at then .error .TimelockNotExpired
  else if recovery_proof.length = 0 then .error .InvalidProof
  else .ok { w with recovery_active := false, recovery_executed_at := now }

/-! ### Commit-reveal voting -/

/-- `Proposal` account from the source. -/
structure Proposal where
  proposal_id : List Nat
  creator : List Nat
  metadata_hash : List Nat
  created_at : Int
  voting_ends_at : Int
  reveal_ends_at : Int
  yes_count : Nat
  no_count : Nat
  total_commitments : Nat
  total_revealed : Nat
  is_finalized : Bool
deriving DecidableEq, Repr

/-- `VoteRecord` account from the source. -/
structure VoteRecord where
  proposal : List Nat
  voter : List Nat
  commitment : List Nat
  has_voted : Bool
  has_revealed : Bool
  revealed_choice : Bool
  voted_at : Int
  revealed_at : Int
deriving DecidableEq, Repr

/-- A freshly `init`-ed vote record account: Solana zero-initializes
account data, so all fields are zero or false. -/
def freshVoteRecord : VoteRecord :=
  ⟨zero32, zero32, zero32, false, false, false, 0, 0⟩

/-- One proposal together with its vote-record accounts, keyed by voter
pubkey (the PDA seeds are the proposal key and the voter key). -/
structure VotingState where
  proposalKey : List Nat
  proposal : Proposal
  records : List (List Nat × VoteRecord)
deriving DecidableEq, Repr

/-- `VoteRevealed` event from the source: it carries only the proposal
key, the voter and the timestamp, and deliberately not the choice. -/
structure VoteRevealedEvent where
  proposal : List Nat
  voter : List Nat
  timestamp : Int
deriving DecidableEq, Repr

/-- `create_proposal`: requires the voting end in the future and the
reveal end after the voting end; zero-initializes all four counters. -/
def create_proposal (proposal_id metadata_hash : List Nat) (voting_ends_at reveal_ends_at : Int)
    (creator proposalKey : List Nat) (now : Int) : Except VeilError VotingState :=
  if !(now < voting_ends_at) then .error .InvalidVotingPeriod
  else if !(voting_ends_at < reveal_ends_at) then .error .InvalidRevealPeriod
  else .ok
    { proposalKey := proposalKey
      proposal :=
        { proposal_id := proposal_id
          creator := creator
          metadata_hash := metadata_hash
          created_at := now
          voting_ends_at := voting_ends_at
          reveal_ends_at := reveal_ends_at
          yes_count := 0
          no_count := 0
          total_commitments := 0
          total_revealed := 0
          is_finalized := false }
      records := [] }

/-- `cast_vote`: the vote-record PDA `init` fails if the voter has a
record already; then the commit window and the (always fresh) has_voted
flag are checked, the record is written and `total_commitments` is
incremented. -/
def cast_vote (s : VotingState) (voter : List Nat) (vote_commitment : List Nat)
    (now : Int) : Except VeilError VotingState :=
  if (findRec s.records voter).isSome then .error .AccountAlreadyInUse
  else if !(now < s.proposal.voting_ends_at) then .error .VotingEnded
  else if freshVoteRecord.has_voted then .error .AlreadyVoted
  else if s.proposal.total_commitments + 1 < 4294967296 then .ok
    { s with
      proposal := { s.proposal with total_commitments := s.proposal.total_commitments + 1 }
      records := s.records ++ [(voter,
        { freshVoteRecord with
          proposal := s.proposalKey
          voter := voter
          commitment := vote_commitment
          has_voted := true
          has_revealed := false
          voted_at := now })] }
  else .error .ArithmeticOverflow

/-- `reveal_vote`: the vote-record PDA must exist and belong to the
voter; the reveal window, has_voted and not-yet-revealed flags are
checked; the recomputed commitment must equal the stored one, else
`InvalidVoteReveal`; then the record is updated and the tallies are
incremented. Returns the new state and the emitted `VoteRevealed`
event. -/
def reveal_vote (s : VotingState) (voter : List Nat) (vote_choice : Bool) (secret : List Nat)
    (now : Int) : Except VeilError (VotingState × VoteRevealedEvent) :=
  match findRec s.records voter with
  | none => .error .AccountNotFound
  | some r =>
    if r.voter ≠ voter then .error .Unauthorized
    else if !(s.proposal.voting_ends_at ≤ now) then .error .VotingNotEnded
    else if !(now < s.proposal.reveal_ends_at) then .error .RevealEnded
    else if !r.has_voted then .error .NotVoted
    else if r.has_revealed then .error .AlreadyRevealed
    else if r.commitment ≠ compute_vote_commitment vote_choice secret voter then
      .error .InvalidVoteReveal
    else if s.proposal.total_revealed + 1 < 4294967296 then
      if vote_choice then
        if s.proposal.yes_count + 1 < 4294967296 then .ok
          ({ s with
              proposal := { s.proposal with
                total_revealed := s.proposal.total_revealed + 1
                yes_count := s.proposal.yes_count + 1 }
              records := setRec s.records voter
                { r with has_revealed := true, revealed_choice := vote_choice, revealed_at := now } },
            ⟨s.proposalKey, voter, now⟩)
        else .error .ArithmeticOverflow
      else
        if s.proposal.no_count + 1 < 4294967296 then .ok
          ({ s with
              proposal := { s.proposal with
                total_revealed := s.proposal.total_revealed + 1
                no_count := s.proposal.no_count + 1 }
              records := setRec s.records voter
                { r with has_revealed := true, revealed_choice := vote_choice, revealed_at := now } },
            ⟨s.proposalKey, voter, now⟩)
        else .error .ArithmeticOverflow
    else .error .ArithmeticOverflow

/-- `finalize_proposal`: only after the reveal window and only once. -/
def finalize_proposal (s : VotingState) (now : Int) : Except VeilError VotingState :=
  if !(s.proposal.reveal_ends_at ≤ now) then .error .RevealNotEnded
  else if s.proposal.is_finalized then .error .AlreadyFinalized
  else .ok { s with proposal := { s.proposal with is_finalized := true } }

/-- Reachable voting states: a proposal is created, then any sequence of
casts, reveals and finalizations that succeed. -/
inductive VReach : VotingState → Prop where
  | created (pid mh : List Nat) (ve re : Int) (cr key : List Nat) (now : Int) (s : VotingState) :
      create_proposal pid mh ve re cr key now = .ok s → VReach s
  | cast (s : VotingState) (voter c : List Nat) (now : Int) (s' : VotingState) :
      VReach s → cast_vote s voter c now = .ok s' → VReach s'
  | revealed (s : VotingState) (voter : List Nat) (ch : Bool) (sec : List Nat) (now : Int)
      (s' : VotingState) (ev : VoteRevealedEvent) :
      VReach s → reveal_vote s voter ch sec now = .ok (s', ev) → VReach s'
  | finalized (s : VotingState) (now : Int) (s' : VotingState) :
      VReach s → finalize_proposal s now = .ok s' → VReach s'

/-! ### Stealth multisig -/

/-- `StealthMultisig` vault account from the source. The signer
commitment array has fixed capacity `MAX_MULTISIG_SIGNERS = 10`. -/
structure StealthMultisig where
  vault_id : List Nat
  creator : List Nat
  threshold : Nat
  total_signers : Nat
  signer_commitments : List (List Nat)
  created_at : Int
  proposal_count : Nat
deriving DecidableEq, Repr

/-- `MultisigProposal` account from the source. The approval commitment
array has fixed capacity 10. -/
structure MultisigProposal where
  multisig : List Nat
  proposal_id : List Nat
  instruction_hash : List Nat
  created_at : Int
  approval_count : Nat
  approval_commitments : List (List Nat)
  is_executed : Bool
  executed_at : Int
deriving DecidableEq, Repr

/-- `create_multisig`: requires a positive threshold, at least threshold
many signer commitments, and at most 10; stores the commitments into the
fixed 10-slot array (remaining slots zero). -/
def create_multisig (vault_id : List Nat) (threshold : Nat)
    (signer_commitments : List (List Nat)) (creator : List Nat)
    (now : Int) : Except VeilError StealthMultisig :=
  if !(0 < threshold) then .error .InvalidThreshold
  else if !(threshold ≤ signer_commitments.length) then .error .InvalidThreshold
  else if !(signer_commitments.length ≤ 10) then .error .TooManySigners
  else .ok
    { vault_id := vault_id
      creator := creator
      threshold := threshold
      total_signers := signer_commitments.length
      signer_commitments := (List.range 10).map fun i => signer_commitments.getD i zero32
      created_at := now
      proposal_count := 0 }

/-- `create_multisig_proposal`: zero approvals, zero-filled approval
slots, not executed; increments the vault's proposal count. -/
def create_multisig_proposal (m : StealthMultisig) (proposal_id instruction_hash : List Nat)
    (msKey : List Nat) (now : Int) : Except VeilError (StealthMultisig × MultisigProposal) :=
  if m.proposal_count + 1 < 4294967296 then .ok
    ({ m with proposal_count := m.proposal_count + 1 },
      { multisig := msKey
        proposal_id := proposal_id
        instruction_hash := instruction_hash
        created_at := now
        approval_count := 0
        approval_commitments := List.replicate 10 zero32
        is_executed := false
        executed_at := 0 })
  else .error .ArithmeticOverflow

/-- `stealth_sign`: only while not executed and below threshold; the
signer proof must be non-zero; the approval commitment must not repeat
any of the first `approval_count` stored ones; appends at index
`approval_count` and increments the count. -/
def stealth_sign (m : StealthMultisig) (p : MultisigProposal)
    (signer_proof approval_commitment : List Nat) : Except VeilError MultisigProposal :=
  if p.is_executed then .error .ProposalAlreadyExecuted
  else if !(p.approval_count < m.threshold) then .error .ThresholdReached
  else if signer_proof = zero32 then .error .InvalidSignerProof
  else if (List.range p.approval_count).any
      (fun i => p.approval_commitments.getD i zero32 = approval_commitment) then
    .error .DuplicateApproval
  else .ok { p with
    approval_commitments := p.approval_commitments.set p.approval_count approval_commitment
    approval_count := p.approval_count + 1 }

/-- `execute_multisig_proposal`: only when not yet executed and the
approval count has reached the threshold; marks executed. -/
def execute_multisig_proposal (m : StealthMultisig) (p : MultisigProposal)
    (now : Int) : Except VeilError MultisigProposal :=
  if p.is_executed then .error .ProposalAlreadyExecuted
  else if !(m.threshold ≤ p.approval_count) then .error .InsufficientApprovals
  else .ok { p with is_executed := true, executed_at := now }

/-- Reachable (vault, proposal) pairs: a vault is created, a proposal is
created on it, then any sequence of successful stealth signs and
executions. -/
inductive MsReach : StealthMultisig × MultisigProposal → Prop where
  | started (vid : List Nat) (th : Nat) (scs : List (List Nat)) (cr : List Nat) (now : Int)
      (m m2 : StealthMultisig) (pid ih msKey : List Nat) (now2 : Int) (p : MultisigProposal) :
      create_multisig vid th scs cr now = .ok m →
      create_multisig_proposal m pid ih msKey now2 = .ok (m2, p) → MsReach (m2, p)
  | signed (m : StealthMultisig) (p : MultisigProposal) (sp ac : List Nat) (p' : MultisigProposal) :
      MsReach (m, p) → stealth_sign m p sp ac = .ok p' → MsReach (m, p')
  | executed (m : StealthMultisig) (p : MultisigProposal) (now : Int) (p' : MultisigProposal) :
      MsReach (m, p) → execute_multisig_proposal m p now = .ok p' → MsReach (m, p')

/-! ### Shielded pool -/

/-- `ShieldedPool` account from the source. -/
structure ShieldedPool where
  pool_id : List Nat
  creator : List Nat
  reward_rate_bps : Nat
  lockup_epochs : Nat
  merkle_root : List Nat
  next_note_index : Nat
  total_notes : Nat
  nullifier_count : Nat
  created_at : Int
  is_active : Bool
deriving DecidableEq, Repr

/-- `is_nullifier_used` from the source: always `false`; the comment in
the source explains that the real double-spend check is the existence of
the nullifier PDA account, enforced by the `init` constraint. -/
def is_nullifier_used (_pool : ShieldedPool) (_nullifier : List Nat) : Bool := false

/-- `ShieldedNote` account from the source. -/
structure ShieldedNote where
  pool : List Nat
  commitment : List Nat
  encrypted_data : List Nat
  note_index : Nat
  created_at : Int
  unlock_at : Int
  is_spent : Bool
deriving DecidableEq, Repr

/-- `NullifierRecord` account from the source: its existence for the
seeds (pool key, nullifier) is the double-spend guard. -/
structure NullifierRecord where
  pool : List Nat
  nullifier : List Nat
  spent_at : Int
deriving DecidableEq, Repr

/-- One pool with its note accounts (keyed by note index) and nullifier
record accounts (keyed by nullifier bytes); both keyed stores model PDA
accounts whose seeds include the pool key. -/
structure PoolState where
  poolKey : List Nat
  pool : ShieldedPool
  notes : List (Nat × ShieldedNote)
  nullifiers : List (List Nat × NullifierRecord)
deriving DecidableEq, Repr

/-- `shield_deposit`: the note PDA `init` (seeded by `next_note_index`)
must not exist; the pool must be active and not full; the range proof
must be at least 64 bytes and pass `verify_range_proof`; then the note
account is written, the root is updated by
`insert_note_to_merkle_tree`, and `next_note_index` and `total_notes`
are incremented. -/
def shield_deposit (s : PoolState) (note_commitment encrypted_note range_proof : List Nat)
    (now : Int) : Except VeilError PoolState :=
  if (findRec s.notes s.pool.next_note_index).isSome then .error .AccountAlreadyInUse
  else if !s.pool.is_active then .error .PoolNotActive
  else if !(s.pool.next_note_index < 256) then .error .PoolFull
  else if range_proof.length < 64 then .error .InvalidRangeProof
  else if !(verify_range_proof note_commitment range_proof) then .error .InvalidRangeProof
  else if s.pool.next_note_index + 1 < 4294967296 && s.pool.total_notes + 1 < 4294967296 then
    .ok { s with
      pool := { s.pool with
        merkle_root := insert_note_to_merkle_tree s.pool.merkle_root note_commitment
          s.pool.next_note_index
        next_note_index := s.pool.next_note_index + 1
        total_notes := s.pool.total_notes + 1 }
      notes := s.notes ++ [(s.pool.next_note_index,
        { pool := s.poolKey
          commitment := note_commitment
          encrypted_data := encrypted_note
          note_index := s.pool.next_note_index
          created_at := now
          unlock_at := now + (s.pool.lockup_epochs : Int) * 432000
          is_spent := false })] }
  else .error .ArithmeticOverflow

/-- `shield_withdraw`: the nullifier PDA `init` (seeded by the nullifier
bytes) must not exist — this is the atomic create-if-absent double-spend
guard; the pool must be active; the (always-false) `is_nullifier_used`
check runs; the Merkle membership proof of the nullifier against the
current root must verify; the withdrawal proof must be at least 256
bytes and pass `verify_withdrawal_proof`; then the nullifier record is
created and, when the output commitment is non-zero, the change note is
inserted into the tree at `next_note_index`. -/
def shield_withdraw (s : PoolState) (nullifier : List Nat) (merkle_proof : List (List Nat))
    (merkle_path_indices : Nat) (withdrawal_proof output_commitment : List Nat)
    (now : Int) : Except VeilError PoolState :=
  if (findRec s.nullifiers nullifier).isSome then .error .AccountAlreadyInUse
  else if !s.pool.is_active then .error .PoolNotActive
  else if is_nullifier_used s.pool nullifier then .error .NullifierAlreadyUsed
  else if !(verify_merkle_proof s.pool.merkle_root merkle_proof merkle_path_indices nullifier) then
    .error .InvalidMerkleProof
  else if withdrawal_proof.length < 256 then .error .InvalidWithdrawalProof
  else if !(verify_withdrawal_proof nullifier output_commitment s.pool.merkle_root
      withdrawal_proof) then
    .error .InvalidWithdrawalProof
  else if output_commitment ≠ zero32 then
    if s.pool.nullifier_count + 1 < 4294967296 && s.pool.next_note_index + 1 < 4294967296 then
      .ok { s with
        pool := { s.pool with
          nullifier_count := s.pool.nullifier_count + 1
          merkle_root := insert_note_to_merkle_tree s.pool.merkle_root output_commitment
            s.pool.next_note_index
          next_note_index := s.pool.next_note_index + 1 }
        nullifiers := s.nullifiers ++ [(nullifier,
          { pool := s.poolKey, nullifier := nullifier, spent_at := now })] }
    else .error .ArithmeticOverflow
  else
    if s.pool.nullifier_count + 1 < 4294967296 then
      .ok { s with
        pool := { s.pool with nullifier_count := s.pool.nullifier_count + 1 }
        nullifiers := s.nullifiers ++ [(nullifier,
          { pool := s.poolKey, nullifier := nullifier, spent_at := now })] }
    else .error .ArithmeticOverflow

/-- `claim_shielded_rewards`: same nullifier-PDA exclusivity and Merkle
membership checks as withdraw; the reward proof must be at least 256
bytes and pass `verify_reward_proof`; then the nullifier record is
created and the new note commitment is inserted into the tree. -/
def claim_shielded_rewards (s : PoolState) (stake_nullifier : List Nat)
    (merkle_proof : List (List Nat)) (merkle_path_indices : Nat)
    (reward_proof new_note_commitment : List Nat) (now : Int) : Except VeilError PoolState :=
  if (findRec s.nullifiers stake_nullifier).isSome then .error .AccountAlreadyInUse
  else if !s.pool.is_active then .error .PoolNotActive
  else if is_nullifier_used s.pool stake_nullifier then
    .error .NullifierAlreadyUsed
  else if !(verify_merkle_proof s.pool.merkle_root merkle_proof merkle_path_indices
      stake_nullifier) then
    .error .InvalidMerkleProof
  else if reward_proof.length < 256 then .error .InvalidRewardProof
  else if !(verify_reward_proof stake_nullifier new_note_commitment s.pool.reward_rate_bps now
      reward_proof) then
    .error .InvalidRewardProof
  else if s.pool.nullifier_count + 1 < 4294967296 && s.pool.next_note_index + 1 < 4294967296 then
    .ok { s with
      pool := { s.pool with
        nullifier_count := s.pool.nullifier_count + 1
        merkle_root := insert_note_to_merkle_tree s.pool.merkle_root new_note_commitment
          s.pool.next_note_index
        next_note_index := s.pool.next_note_index + 1 }
      nullifiers := s.nullifiers ++ [(stake_nullifier,
        { pool := s.poolKey, nullifier := stake_nullifier, spent_at := now })] }
  else .error .ArithmeticOverflow

/-- Replaying a sequence of (commitment, index) insertions from a
starting root: the accumulator fold of `insert_note_to_merkle_tree`. -/
def replay_insertions (root : List Nat) (entries : List (List Nat × Nat)) : List Nat :=
  entries.foldl (fun r e => insert_note_to_merkle_tree r e.1 e.2) root

/-- Modelled from the spec: the standard sibling-path Merkle fold it
describes for withdrawals — start from the nullifier, combine with each
of the 8 siblings in the order selected by bit `i` of the path bits, and
the result is compared with the pool root. Used as the specification
side of the refinement statement for `verify_merkle_proof`. -/
def merkle_fold (leaf : List Nat) (proof : List (List Nat)) (path_indices : Nat) : List Nat :=
  (List.range 8).foldl (fun current i =>
    if (path_indices >>> i) % 2 = 1 then keccak256 (proof.getD i zero32 ++ current)
    else keccak256 (current ++ proof.getD i zero32)) leaf

/-- Vote-tally bookkeeping predicate: a record that has voted. -/
def recVoted : List Nat × VoteRecord → Bool := fun p => p.2.has_voted

/-- Vote-tally bookkeeping predicate: a record that has revealed. -/
def recRevealed : List Nat × VoteRecord → Bool := fun p => p.2.has_revealed

/-- The inductive invariant for the voting subsystem: the counters agree
with the record store, every revealed record has voted, the yes and no
tallies sum to the revealed count, and voter keys are unique. -/
def VInv (s : VotingState) : Prop :=
  s.proposal.total_commitments = s.records.countP recVoted
  ∧ s.proposal.total_revealed = s.records.countP recRevealed
  ∧ (∀ p ∈ s.records, p.2.has_revealed = true → p.2.has_voted = true)
  ∧ s.proposal.yes_count + s.proposal.no_count = s.proposal.total_revealed
  ∧ (s.records.map Prod.fst).Nodup

/-! ### Concrete example states used by the witness theorems -/

/-- Example wallet with no active recovery. -/
def wEx : WalletAccount := ⟨zero32, zero32, 0, zero32, false, 0, 0, 0⟩

/-- Example signer commitment. -/
def sc1 : List Nat := List.replicate 32 3

/-- Second example signer commitment. -/
def sc2 : List Nat := List.replicate 32 4

/-- Example vault right after `create_multisig` (threshold 1 of 2
signers). -/
def msEx1 : StealthMultisig :=
  ⟨zero32, zero32, 1, 2, [sc1, sc2] ++ List.replicate 8 zero32, 0, 0⟩

/-- Example vault after `create_multisig` (threshold 1 of 2 signers) and
one `create_multisig_proposal` (proposal count 1). -/
def msEx2 : StealthMultisig :=
  ⟨zero32, zero32, 1, 2, [sc1, sc2] ++ List.replicate 8 zero32, 0, 1⟩

/-- The multisig-capacity invariant: the approval count never exceeds
the threshold, which never exceeds the signer count, which never
exceeds the fixed capacity 10, and the approval slot array keeps its
fixed length 10. -/
def MsInv (mp : StealthMultisig × MultisigProposal) : Prop :=
  mp.2.approval_count ≤ mp.1.threshold
  ∧ mp.1.threshold ≤ mp.1.total_signers
  ∧ mp.1.total_signers ≤ 10
  ∧ mp.2.approval_commitments.length = 10

/-- Example fresh multisig proposal. -/
def mpEx : MultisigProposal := ⟨zero32, zero32, zero32, 0, 0, List.replicate 10 zero32, false, 0⟩

/-- Example multisig proposal with one approval recorded. -/
def mpSig : MultisigProposal :=
  ⟨zero32, zero32, zero32, 0, 1, sc1 :: List.replicate 9 zero32, false, 0⟩

/-- Example multisig proposal after execution. -/
def mpDone : MultisigProposal :=
  ⟨zero32, zero32, zero32, 0, 1, sc1 :: List.replicate 9 zero32, true, 7⟩

/-- Example active shielded pool with an empty tree. -/
def poolEx : ShieldedPool := ⟨zero32, zero32, 100, 1, zero32, 0, 0, 0, 0, true⟩

/-- Example nullifier value. -/
def nEx : List Nat := List.replicate 32 1

/-- Example pool state in which `nEx` has already been nullified. -/
def psSpent : PoolState := ⟨zero32, poolEx, [], [(nEx, ⟨zero32, nEx, 0⟩)]⟩

/-- Example pool state with no notes and no nullifiers. -/
def psEmpty : PoolState := ⟨zero32, poolEx, [], []⟩

/-- Example note commitment for deposits. -/
def cDep : List Nat := List.replicate 32 2

/-- Example encrypted note payload. -/
def eDep : List Nat := List.replicate 64 0

/-- Example range proof bytes. -/
def rpDep : List Nat := List.replicate 64 1

/-- The pool state after depositing `cDep` into `psEmpty`. -/
def psDep : PoolState :=
  { psEmpty with
    pool := { poolEx with
      merkle_root := insert_note_to_merkle_tree poolEx.merkle_root cDep 0
      next_note_index := 1
      total_notes := 1 }
    notes := [(0, ⟨zero32, cDep, eDep, 0, 0, 432000, false⟩)] }

/-- Example proposal whose commit window is `(-inf, 0)` and whose reveal
window is `[0, 10)`. -/
def propEx : Proposal := ⟨zero32, zero32, zero32, -5, 0, 10, 0, 0, 1, 0, false⟩

/-- Example voter pubkey. -/
def vt : List Nat := List.replicate 32 6

/-- Example reveal secret. -/
def secEx : List Nat := List.replicate 32 7

/-- Vote record committing to a yes vote with `secEx`. -/
def rcTrue : VoteRecord := ⟨zero32, vt, compute_vote_commitment true secEx vt, true, false, false, -1, 0⟩

/-- Vote record committing to a no vote with `secEx`. -/
def rcFalse : VoteRecord := ⟨zero32, vt, compute_vote_commitment false secEx vt, true, false, false, -1, 0⟩

/-- Voting state holding the yes-committed record. -/
def vs1 : VotingState := ⟨zero32, propEx, [(vt, rcTrue)]⟩

/-- Voting state holding the no-committed record. -/
def vs2 : VotingState := ⟨zero32, propEx, [(vt, rcFalse)]⟩

/-- State after revealing the yes vote in `vs1` at time 5. -/
def vs1' : VotingState :=
  ⟨zero32, { propEx with total_revealed := 1, yes_count := 1 },
    [(vt, { rcTrue with has_revealed := true, revealed_choice := true, revealed_at := 5 })]⟩

/-- State after revealing the no vote in `vs2` at time 5. -/
def vs2' : VotingState :=
  ⟨zero32, { propEx with total_revealed := 1, no_count := 1 },
    [(vt, { rcFalse with has_revealed := true, revealed_choice := false, revealed_at := 5 })]⟩

/-- Voting state with an unrevealed vote record whose commitment is the
all-zero string (used to exercise the reveal gate). -/
def vsC4 : VotingState := ⟨zero32, propEx, [(vt, ⟨zero32, vt, zero32, true, false, false, -1, 0⟩)]⟩

/-- The state produced by `create_proposal` at time 0 with windows 10
and 20. -/
def vsEx : VotingState :=
  ⟨zero32, ⟨zero32, zero32, zero32, 0, 10, 20, 0, 0, 0, 0, false⟩, []⟩

/-- Example wallet for the proof-submission claim. -/
def w9 : WalletAccount := ⟨List.replicate 32 9, zero32, 0, zero32, false, 0, 0, 0⟩

/-! ### Association-list store lemmas -/

theorem findRec_append_isSome {K V : Type} [DecidableEq K] (l₁ l₂ : List (K × V)) (k : K)
    (h : (findRec l₁ k).isSome = true) : (findRec (l₁ ++ l₂) k).isSome = true := by
  induction l₁ with
  | nil => simp [findRec] at h
  | cons p l ih =>
    by_cases hp : p.1 = k
    · simp [findRec, hp]
    · simp only [findRec, hp, if_false, List.cons_append] at h ⊢
      exact ih h

theorem findRec_append_self {K V : Type} [DecidableEq K] (l : List (K × V)) (k : K) (v : V) :
    (findRec (l ++ [(k, v)]) k).isSome = true := by
  induction l with
  | nil => simp [findRec]
  | cons p l ih =>
    by_cases hp : p.1 = k
    · simp [findRec, hp]
    · simpa [findRec, hp] using ih

theorem findRec_none_of_not_mem {K V : Type} [DecidableEq K] (l : List (K × V)) (k : K)
    (h : k ∉ l.map Prod.fst) : findRec l k = none := by
  induction l with
  | nil => rfl
  | cons p l ih =>
    simp only [List.map_cons, List.mem_cons] at h
    push_neg at h
    have hp : ¬ p.1 = k := fun hh => h.1 hh.symm
    simp [findRec, hp, ih h.2]

theorem not_mem_of_findRec_none {K V : Type} [DecidableEq K] (l : List (K × V)) (k : K)
    (h : findRec l k = none) : k ∉ l.map Prod.fst := by
  induction l with
  | nil => simp
  | cons p l ih =>
    by_cases hp : p.1 = k
    · simp [findRec, hp] at h
    · simp only [findRec, hp, if_false] at h
      simp only [List.map_cons, List.mem_cons]
      push_neg
      exact ⟨fun hh => hp hh.symm, ih h⟩

theorem setRec_of_none {K V : Type} [DecidableEq K] (l : List (K × V)) (k : K) (v : V)
    (h : findRec l k = none) : setRec l k v = l := by
  induction l with
  | nil => rfl
  | cons p l ih =>
    by_cases hp : p.1 = k
    · simp [findRec, hp] at h
    · simp only [findRec, hp, if_false] at h
      simp [setRec, hp, ih h]

theorem map_fst_setRec {K V : Type} [DecidableEq K] (l : List (K × V)) (k : K) (v : V) :
    (setRec l k v).map Prod.fst = l.map Prod.fst := by
  induction l with
  | nil => rfl
  | cons p l ih =>
    by_cases hp : p.1 = k
    · simp only [setRec, hp, if_true, List.map_cons, ih]
    · simp [setRec, hp, ih]

theorem mem_setRec {K V : Type} [DecidableEq K] (l : List (K × V)) (k : K) (v : V)
    (x : K × V) (hx : x ∈ setRec l k v) : x = (k, v) ∨ x ∈ l := by
  induction l with
  | nil => simp [setRec] at hx
  | cons p l ih =>
    by_cases hp : p.1 = k
    · simp only [setRec, hp, if_true, List.mem_cons] at hx
      rcases hx with hx | hx
      · exact Or.inl hx
      · rcases ih hx with hx | hx
        · exact Or.inl hx
        · exact Or.inr (List.mem_cons_of_mem _ hx)
    · simp only [setRec, hp, if_false, List.mem_cons] at hx
      rcases hx with hx | hx
      · exact Or.inr (hx ▸ List.mem_cons_self _ _)
      · rcases ih hx with hx | hx
        · exact Or.inl hx
        · exact Or.inr (List.mem_cons_of_mem _ hx)

theorem countP_setRec {K V : Type} [DecidableEq K] (l : List (K × V)) (k : K) (v r : V)
    (q : K × V → Bool) (hnd : (l.map Prod.fst).Nodup) (hl : findRec l k = some r) :
    (setRec l k v).countP q + (if q (k, r) then 1 else 0)
      = l.countP q + (if q (k, v) then 1 else 0) := by
  induction l with
  | nil => simp [findRec] at hl
  | cons p l ih =>
    simp only [List.map_cons, List.nodup_cons] at hnd
    by_cases hp : p.1 = k
    · simp only [findRec, hp, if_true, Option.some.injEq] at hl
      have hnone : findRec l k = none := findRec_none_of_not_mem l k (hp ▸ hnd.1)
      have hkr : (k, r) = p := by
        cases p
        simp_all
      simp [setRec, hp, setRec_of_none l k v hnone, List.countP_cons, ← hkr]
      omega
    · simp only [findRec, hp, if_false] at hl
      have := ih hnd.2 hl
      simp [setRec, hp, List.countP_cons]
      omega

/-! ### Claim theorems -/

/-- C7: `execute_multisig_proposal` succeeds only when the approval count
has reached the threshold and the proposal is not yet executed; with
fewer approvals (and not yet executed) it fails `InsufficientApprovals`;
on success it sets `is_executed`; a second execution attempt on the
resulting proposal always fails `ProposalAlreadyExecuted`. An `.error`
return models the transaction aborting with no state change. -/
theorem execute_threshold_and_idempotency_guard (m : StealthMultisig) (p : MultisigProposal)
    (now : Int) (hexec : p.is_executed = false) :
    (p.approval_count < m.threshold →
      execute_multisig_proposal m p now = .error .InsufficientApprovals)
    ∧ (∀ p', execute_multisig_proposal m p now = .ok p' →
        m.threshold ≤ p.approval_count ∧ p'.is_executed = true ∧
        ∀ now2, execute_multisig_proposal m p' now2 = .error .ProposalAlreadyExecuted) := by
  constructor
  · intro hlt
    simp [execute_multisig_proposal, hexec, Nat.not_le.mpr hlt]
  · intro p' hok
    rw [execute_multisig_proposal, hexec] at hok
    simp only [Bool.false_eq_true, if_false] at hok
    split at hok
    · cases hok
    · rename_i hcond
      have hth : m.threshold ≤ p.approval_count := by simpa using hcond
      cases hok
      exact ⟨hth, rfl, fun now2 => by simp [execute_multisig_proposal]⟩

/-- Witness for C7: with threshold 1 and one approval, execution succeeds
and marks the proposal executed; re-executing the resulting proposal
fails `ProposalAlreadyExecuted`. -/
theorem execute_threshold_and_idempotency_guard_witness :
    execute_multisig_proposal msEx2 mpSig 7 = .ok mpDone ∧
    execute_multisig_proposal msEx2 mpDone 8 = .error .ProposalAlreadyExecuted := by
  have h : execute_multisig_proposal msEx2 mpSig 7 = .ok mpDone := by decide
  exact ⟨h, ((execute_threshold_and_idempotency_guard msEx2 mpSig 7 (by decide)).2
    mpDone h).2.2 8⟩

/-- C8: `initiate_recovery` with no active recovery and a timelock of 1
to 90 days sets `recovery_unlock_at` to now plus days times 86400 and
activates recovery; afterwards `execute_recovery` fails
`TimelockNotExpired` at every time strictly before the unlock time (as
long as recovery is active), and whenever recovery is active, the time
has reached the unlock time, and the proof is non-empty, it succeeds and
clears `recovery_active`. -/
theorem recovery_timelock_gate (w : WalletAccount) (rcm : List Nat) (d : Nat) (now : Int)
    (hact : w.recovery_active = false) (hd1 : 1 ≤ d) (hd2 : d ≤ 90) :
    initiate_recovery w rcm d now = .ok { w with
      recovery_commitment := rcm
      recovery_initiated_at := now
      recovery_unlock_at := now + (d : Int) * 86400
      recovery_active := true }
    ∧ (∀ w2 : WalletAccount, w2.recovery_active = true → ∀ pf : List Nat, ∀ now2 : Int,
        now2 < w2.recovery_unlock_at → execute_recovery w2 pf now2 = .error .TimelockNotExpired)
    ∧ (∀ w2 : WalletAccount, ∀ pf : List Nat, ∀ now2 : Int, w2.recovery_active = true →
        w2.recovery_unlock_at ≤ now2 → pf ≠ [] →
        execute_recovery w2 pf now2
          = .ok { w2 with recovery_active := false, recovery_executed_at := now2 }) := by
  refine ⟨?_, ?_, ?_⟩
  · simp [initiate_recovery, hact, hd1, hd2]
  · intro w2 hact2 pf now2 hlt
    simp [execute_recovery, hact2, hlt]
  · intro w2 pf now2 hact2 hge hpf
    have hlen : ¬ pf.length = 0 := by simpa using hpf
    simp [execute_recovery, hact2, Int.not_lt.mpr hge, hlen]

/-- Witness for C8: a 5-day recovery initiated at time 100 unlocks at
532100, cannot be executed at time 200, and succeeds at time 532100. -/
theorem recovery_timelock_gate_witness :
    initiate_recovery wEx zero32 5 100 = .ok { wEx with
      recovery_commitment := zero32
      recovery_initiated_at := 100
      recovery_unlock_at := 100 + (5 : Int) * 86400
      recovery_active := true }
    ∧ execute_recovery { wEx with
        recovery_commitment := zero32
        recovery_initiated_at := 100
        recovery_unlock_at := 100 + (5 : Int) * 86400
        recovery_active := true } [1] 200 = .error .TimelockNotExpired
    ∧ execute_recovery { wEx with
        recovery_commitment := zero32
        recovery_initiated_at := 100
        recovery_unlock_at := 100 + (5 : Int) * 86400
        recovery_active := true } [1] 432100
      = .ok { wEx with
          recovery_commitment := zero32
          recovery_initiated_at := 100
          recovery_unlock_at := 100 + (5 : Int) * 86400
          recovery_active := false
          recovery_executed_at := 432100 } := by
  have h := recovery_timelock_gate wEx zero32 5 100 rfl (by decide) (by decide)
  refine ⟨h.1, h.2.1 _ rfl [1] 200 (by decide), ?_⟩
  have := h.2.2 { wEx with
    recovery_commitment := zero32
    recovery_initiated_at := 100
    recovery_unlock_at := 100 + (5 : Int) * 86400
    recovery_active := true } [1] 432100 rfl (by decide) (by decide)
  simpa using this

set_option maxHeartbeats 1600000 in
/-- C1: the (pool, nullifier) PDA is an exclusive create-if-absent
record. Once a `NullifierRecord` exists for the nullifier, every later
`shield_withdraw` or `claim_shielded_rewards` with the same nullifier on
the same pool aborts with the account-already-in-use conflict (the
StateConflict double-spend error) before any body check, changing no
state; every successful `shield_withdraw` or `claim_shielded_rewards`
creates the record for its nullifier; and every successful pool
operation preserves existing records, so the record can never be created
twice. -/
theorem nullifier_double_spend_guard (s2 : PoolState) (n : List Nat)
    (h : (findRec s2.nullifiers n).isSome = true) :
    (∀ mp pidx wp oc now, shield_withdraw s2 n mp pidx wp oc now = .error .AccountAlreadyInUse)
    ∧ (∀ mp pidx rp ncm now,
        claim_shielded_rewards s2 n mp pidx rp ncm now = .error .AccountAlreadyInUse)
    ∧ isStateConflict .AccountAlreadyInUse = true
    ∧ (∀ s s1 mp pidx wp oc now, shield_withdraw s n mp pidx wp oc now = .ok s1 →
        (findRec s1.nullifiers n).isSome = true)
    ∧ (∀ s s1 mp pidx rp ncm now, claim_shielded_rewards s n mp pidx rp ncm now = .ok s1 →
        (findRec s1.nullifiers n).isSome = true)
    ∧ (∀ s s1 c e rp now, shield_deposit s c e rp now = .ok s1 →
        s1.nullifiers = s.nullifiers)
    ∧ (∀ s s1 n2 mp pidx wp oc now, shield_withdraw s n2 mp pidx wp oc now = .ok s1 →
        (findRec s.nullifiers n).isSome = true → (findRec s1.nullifiers n).isSome = true)
    ∧ (∀ s s1 n2 mp pidx rp ncm now, claim_shielded_rewards s n2 mp pidx rp ncm now = .ok s1 →
        (findRec s.nullifiers n).isSome = true → (findRec s1.nullifiers n).isSome = true) := by
  refine ⟨?_, ?_, rfl, ?_, ?_, ?_, ?_, ?_⟩
  · intro mp pidx wp oc now
    simp [shield_withdraw, h]
  · intro mp pidx rp ncm now
    simp [claim_shielded_rewards, h]
  · intro s s1 mp pidx wp oc now hok
    rw [shield_withdraw] at hok
    repeat' split at hok
    all_goals cases hok
    all_goals exact findRec_append_self _ _ _
  · intro s s1 mp pidx rp ncm now hok
    rw [claim_shielded_rewards] at hok
    repeat' split at hok
    all_goals cases hok
    all_goals exact findRec_append_self _ _ _
  · intro s s1 c e rp now hok
    rw [shield_deposit] at hok
    repeat' split at hok
    all_goals cases hok
    all_goals rfl
  · intro s s1 n2 mp pidx wp oc now hok hpre
    rw [shield_withdraw] at hok
    repeat' split at hok
    all_goals cases hok
    all_goals exact findRec_append_isSome _ _ _ hpre
  · intro s s1 n2 mp pidx rp ncm now hok hpre
    rw [claim_shielded_rewards] at hok
    repeat' split at hok
    all_goals cases hok
    all_goals exact findRec_append_isSome _ _ _ hpre

/-- Witness for C1: in a pool whose store already holds a record for
`nEx`, both consuming operations abort with the StateConflict error. -/
theorem nullifier_double_spend_guard_witness :
    shield_withdraw psSpent nEx [] 0 [] zero32 3 = .error .AccountAlreadyInUse
    ∧ claim_shielded_rewards psSpent nEx [] 0 [] zero32 3 = .error .AccountAlreadyInUse := by
  have h := nullifier_double_spend_guard psSpent nEx (by decide)
  exact ⟨h.1 [] 0 [] zero32 3, h.2.1 [] 0 [] zero32 3⟩

set_option maxHeartbeats 1600000 in
/-- C2: every note insertion — by `shield_deposit`, by `shield_withdraw`
when the output commitment is non-zero, and by `claim_shielded_rewards`
— sets the new root to exactly the keccak hash of the current root, the
inserted commitment, and the 4 little-endian bytes of the pool's
`next_note_index` at the time of insertion; and replaying an equal
sequence of (commitment, index) insertions from an equal starting root
yields an equal final root. -/
theorem merkle_insertion_transcript (s s' : PoolState) (c e rp : List Nat) (now : Int)
    (h : shield_deposit s c e rp now = .ok s') :
    s'.pool.merkle_root
      = keccak256 (s.pool.merkle_root ++ c ++ le4 s.pool.next_note_index)
    ∧ s'.pool.next_note_index = s.pool.next_note_index + 1
    ∧ (∀ t t' n mp pidx wp oc now2, shield_withdraw t n mp pidx wp oc now2 = .ok t' →
        oc ≠ zero32 →
        t'.pool.merkle_root
          = keccak256 (t.pool.merkle_root ++ oc ++ le4 t.pool.next_note_index))
    ∧ (∀ t t' n mp pidx rp2 ncm now2, claim_shielded_rewards t n mp pidx rp2 ncm now2 = .ok t' →
        t'.pool.merkle_root
          = keccak256 (t.pool.merkle_root ++ ncm ++ le4 t.pool.next_note_index))
    ∧ (∀ r1 r2 es1 es2, r1 = r2 → es1 = es2 → replay_insertions r1 es1 = replay_insertions r2 es2)
    := by
  refine ⟨?_, ?_, ?_, ?_, ?_⟩
  · rw [shield_deposit] at h
    repeat' split at h
    all_goals cases h
    rfl
  · rw [shield_deposit] at h
    repeat' split at h
    all_goals cases h
    rfl
  · intro t t' n mp pidx wp oc now2 hok hoc
    rw [shield_withdraw] at hok
    repeat' split at hok
    all_goals first
      | exact absurd hoc (by assumption)
      | cases hok
    all_goals rfl
  · intro t t' n mp pidx rp2 ncm now2 hok
    rw [claim_shielded_rewards] at hok
    repeat' split at hok
    all_goals cases hok
    rfl
  · intro r1 r2 es1 es2 h1 h2
    rw [h1, h2]

/-- Witness for C2: depositing `cDep` into the empty pool produces the
transcript root over index 0. -/
theorem merkle_insertion_transcript_witness :
    psDep.pool.merkle_root
      = keccak256 (psEmpty.pool.merkle_root ++ cDep ++ le4 psEmpty.pool.next_note_index) :=
  (merkle_insertion_transcript psEmpty psDep cDep eDep rpDep 0 (by decide)).1

set_option maxHeartbeats 1600000 in
/-- C6: `shield_withdraw` (here under an active pool and an unused
nullifier, with an 8-entry sibling list) accepts the Merkle membership
proof exactly when the standard sibling-path fold of the nullifier
through the 8 siblings — left/right selected by bit `i` of the path
bits — ends at the pool root, and aborts with `InvalidMerkleProof`
exactly when the fold ends elsewhere. -/
theorem withdraw_merkle_membership_gate (s : PoolState) (n : List Nat) (mp : List (List Nat))
    (pidx : Nat) (wp oc : List Nat) (now : Int)
    (hactive : s.pool.is_active = true) (habsent : findRec s.nullifiers n = none)
    (_hlen : mp.length = 8) :
    (verify_merkle_proof s.pool.merkle_root mp pidx n = true ↔
      merkle_fold n mp pidx = s.pool.merkle_root)
    ∧ (shield_withdraw s n mp pidx wp oc now = .error .InvalidMerkleProof ↔
      merkle_fold n mp pidx ≠ s.pool.merkle_root) := by
  have hiff : verify_merkle_proof s.pool.merkle_root mp pidx n = true ↔
      merkle_fold n mp pidx = s.pool.merkle_root := by
    simp [verify_merkle_proof, merkle_fold]
  refine ⟨hiff, ?_⟩
  rw [shield_withdraw]
  simp only [habsent, Option.isSome_none, Bool.false_eq_true, if_false, hactive,
    Bool.not_true, is_nullifier_used]
  by_cases hv : verify_merkle_proof s.pool.merkle_root mp pidx n = true
  · have hroot : merkle_fold n mp pidx = s.pool.merkle_root := hiff.mp hv
    simp only [hv, Bool.not_true, Bool.false_eq_true, if_false]
    constructor
    · intro hcontra
      exfalso
      revert hcontra
      repeat' split
      all_goals intro hcontra
      all_goals cases hcontra
    · intro hne
      exact absurd hroot hne
  · have hvfalse : verify_merkle_proof s.pool.merkle_root mp pidx n = false :=
      Bool.not_eq_true _ ▸ Bool.eq_false_iff.mpr hv
    simp only [hvfalse, Bool.not_false, if_true]
    constructor
    · intro _
      exact fun hroot => hv (hiff.mpr hroot)
    · intro _
      trivial

/-- Witness for C6: the gate theorem applies to the empty pool with an
all-zero sibling path. -/
theorem withdraw_merkle_membership_gate_witness :
    (verify_merkle_proof psEmpty.pool.merkle_root (List.replicate 8 zero32) 0 nEx = true ↔
      merkle_fold nEx (List.replicate 8 zero32) 0 = psEmpty.pool.merkle_root)
    ∧ (shield_withdraw psEmpty nEx (List.replicate 8 zero32) 0 (List.replicate 256 0) zero32 0
        = .error .InvalidMerkleProof ↔
      merkle_fold nEx (List.replicate 8 zero32) 0 ≠ psEmpty.pool.merkle_root) :=
  withdraw_merkle_membership_gate psEmpty nEx (List.replicate 8 zero32) 0
    (List.replicate 256 0) zero32 0 rfl rfl (by decide)

set_option maxHeartbeats 1600000 in
/-- C4: for a voter with an existing vote record that has voted and not
revealed, at a time inside the reveal window and with counters clear of
the u32 overflow abort, `reveal_vote` succeeds if and only if the
recomputed keccak commitment of (choice byte, secret, voter) equals the
stored commitment, and on mismatch it fails `InvalidVoteReveal` (an
`.error` return models the transaction aborting, so the record and the
tallies are unchanged). -/
theorem reveal_commitment_gate (s : VotingState) (voter : List Nat) (r : VoteRecord)
    (choice : Bool) (secret : List Nat) (now : Int)
    (hr : findRec s.records voter = some r) (hv : r.voter = voter)
    (hvt : r.has_voted = true) (hnr : r.has_revealed = false)
    (ht1 : s.proposal.voting_ends_at ≤ now) (ht2 : now < s.proposal.reveal_ends_at)
    (hb1 : s.proposal.total_revealed + 1 < 4294967296)
    (hb2 : s.proposal.yes_count + 1 < 4294967296)
    (hb3 : s.proposal.no_count + 1 < 4294967296) :
    ((∃ out, reveal_vote s voter choice secret now = .ok out) ↔
      r.commitment = compute_vote_commitment choice secret voter)
    ∧ (r.commitment ≠ compute_vote_commitment choice secret voter →
      reveal_vote s voter choice secret now = .error .InvalidVoteReveal) := by
  have hmismatch : r.commitment ≠ compute_vote_commitment choice secret voter →
      reveal_vote s voter choice secret now = .error .InvalidVoteReveal := by
    intro hcc
    rw [reveal_vote, hr]
    simp [hv, ht1, ht2, hvt, hnr, hcc]
  have hmatch : r.commitment = compute_vote_commitment choice secret voter →
      ∃ out, reveal_vote s voter choice secret now = .ok out := by
    intro hc
    rw [reveal_vote, hr]
    cases choice
    · simp [hv, ht1, ht2, hvt, hnr, hc, hb1, hb3]
    · simp [hv, ht1, ht2, hvt, hnr, hc, hb1, hb2]
  refine ⟨⟨?_, hmatch⟩, hmismatch⟩
  intro hout
  obtain ⟨out, hout⟩ := hout
  by_contra hcc
  rw [hmismatch hcc] at hout
  cases hout

/-- Witness for C4: the gate theorem applies to a concrete state with an
unrevealed record inside the reveal window. -/
theorem reveal_commitment_gate_witness :
    ((∃ out, reveal_vote vsC4 vt true secEx 5 = .ok out) ↔
      (⟨zero32, vt, zero32, true, false, false, -1, 0⟩ : VoteRecord).commitment
        = compute_vote_commitment true secEx vt)
    ∧ ((⟨zero32, vt, zero32, true, false, false, -1, 0⟩ : VoteRecord).commitment
        ≠ compute_vote_commitment true secEx vt →
      reveal_vote vsC4 vt true secEx 5 = .error .InvalidVoteReveal) :=
  reveal_commitment_gate vsC4 vt ⟨zero32, vt, zero32, true, false, false, -1, 0⟩ true secEx 5
    (by decide) rfl rfl rfl (by decide) (by decide) (by decide) (by decide) (by decide)

set_option maxHeartbeats 1600000 in
set_option maxRecDepth 100000 in
/-- A successful `reveal_vote` emits exactly the event carrying the
proposal key, the voter and the timestamp. -/
theorem reveal_vote_event (s : VotingState) (voter : List Nat) (choice : Bool)
    (secret : List Nat) (now : Int) (s' : VotingState) (ev : VoteRevealedEvent)
    (h : reveal_vote s voter choice secret now = .ok (s', ev)) :
    ev = ⟨s.proposalKey, voter, now⟩ := by
  rw [reveal_vote] at h
  rcases hfind : findRec s.records voter with _ | r
  all_goals rw [hfind] at h
  all_goals simp only [] at h
  · cases h
  by_cases h1 : r.voter ≠ voter
  · rw [if_pos h1] at h
    cases h
  rw [if_neg h1] at h
  by_cases h2 : (!decide (s.proposal.voting_ends_at ≤ now)) = true
  · rw [if_pos h2] at h
    cases h
  rw [if_neg h2] at h
  by_cases h3 : (!decide (now < s.proposal.reveal_ends_at)) = true
  · rw [if_pos h3] at h
    cases h
  rw [if_neg h3] at h
  by_cases h4 : (!r.has_voted) = true
  · rw [if_pos h4] at h
    cases h
  rw [if_neg h4] at h
  by_cases h5 : r.has_revealed = true
  · rw [if_pos h5] at h
    cases h
  rw [if_neg h5] at h
  by_cases h6 : r.commitment ≠ compute_vote_commitment choice secret voter
  · rw [if_pos h6] at h
    cases h
  rw [if_neg h6] at h
  by_cases h7 : s.proposal.total_revealed + 1 < 4294967296
  case neg =>
    rw [if_neg h7] at h
    cases h
  rw [if_pos h7] at h
  cases choice
  · rw [if_neg (by simp : ¬ (false = true))] at h
    by_cases h8 : s.proposal.no_count + 1 < 4294967296
    case neg =>
      rw [if_neg h8] at h
      cases h
    rw [if_pos h8] at h
    cases h
    rfl
  · rw [if_pos rfl] at h
    by_cases h8 : s.proposal.yes_count + 1 < 4294967296
    case neg =>
      rw [if_neg h8] at h
      cases h
    rw [if_pos h8] at h
    cases h
    rfl

/-- C5: the `VoteRevealed` event does not depend on the revealed choice:
two successful reveals on proposals with the same key, by the same
voter, at the same time, possibly differing in choice and secret, emit
identical events, namely the record of (proposal, voter, timestamp)
only — the event type has no choice field. -/
theorem reveal_event_choice_independent (s1 s2 : VotingState) (voter : List Nat)
    (c1 c2 : Bool) (sec1 sec2 : List Nat) (now : Int) (s1' s2' : VotingState)
    (ev1 ev2 : VoteRevealedEvent)
    (hkey : s1.proposalKey = s2.proposalKey)
    (h1 : reveal_vote s1 voter c1 sec1 now = .ok (s1', ev1))
    (h2 : reveal_vote s2 voter c2 sec2 now = .ok (s2', ev2)) :
    ev1 = ev2 ∧ ev1 = ⟨s1.proposalKey, voter, now⟩ := by
  have e1 := reveal_vote_event s1 voter c1 sec1 now s1' ev1 h1
  have e2 := reveal_vote_event s2 voter c2 sec2 now s2' ev2 h2
  rw [e1, e2, hkey]
  exact ⟨rfl, rfl⟩

/-- Witness for C5: a successful yes reveal on `vs1` and a successful no
reveal on `vs2` (same proposal key, voter, and time, differing only in
the committed choice) produce the same event. -/
theorem reveal_event_choice_independent_witness :
    (⟨zero32, vt, 5⟩ : VoteRevealedEvent) = ⟨zero32, vt, 5⟩
    ∧ (⟨zero32, vt, 5⟩ : VoteRevealedEvent) = ⟨vs1.proposalKey, vt, 5⟩ :=
  reveal_event_choice_independent vs1 vs2 vt true false secEx secEx 5 vs1' vs2'
    ⟨zero32, vt, 5⟩ ⟨zero32, vt, 5⟩ rfl (by decide) (by decide)

set_option maxHeartbeats 800000 in
/-- A successful `cast_vote` requires the voter to have no record yet,
appends a voted-unrevealed record, and increments only the commitment
counter. -/
theorem cast_vote_ok_shape (s : VotingState) (voter c : List Nat) (now : Int) (s' : VotingState)
    (h : cast_vote s voter c now = .ok s') :
    findRec s.records voter = none
    ∧ s'.records = s.records ++ [(voter,
        { freshVoteRecord with
          proposal := s.proposalKey
          voter := voter
          commitment := c
          has_voted := true
          has_revealed := false
          voted_at := now })]
    ∧ s'.proposal.total_commitments = s.proposal.total_commitments + 1
    ∧ s'.proposal.total_revealed = s.proposal.total_revealed
    ∧ s'.proposal.yes_count = s.proposal.yes_count
    ∧ s'.proposal.no_count = s.proposal.no_count := by
  rw [cast_vote] at h
  repeat' split at h
  all_goals cases h
  have hns : ¬ ((findRec s.records voter).isSome = true) := by assumption
  refine ⟨?_, rfl, rfl, rfl, rfl, rfl⟩
  cases hopt : findRec s.records voter with
  | none => rfl
  | some v => exact absurd (by simp [hopt]) hns

set_option maxHeartbeats 1600000 in
/-- A successful `reveal_vote` requires an existing voted, unrevealed
record; it flips the record to revealed and increments the revealed
counter together with exactly one of the two tallies. -/
theorem reveal_vote_ok_shape (s : VotingState) (voter : List Nat) (choice : Bool)
    (secret : List Nat) (now : Int) (s' : VotingState) (ev : VoteRevealedEvent)
    (h : reveal_vote s voter choice secret now = .ok (s', ev)) :
    ∃ r : VoteRecord, findRec s.records voter = some r
    ∧ r.has_voted = true ∧ r.has_revealed = false
    ∧ s'.records = setRec s.records voter
        { r with has_revealed := true, revealed_choice := choice, revealed_at := now }
    ∧ s'.proposal.total_commitments = s.proposal.total_commitments
    ∧ s'.proposal.total_revealed = s.proposal.total_revealed + 1
    ∧ ((choice = true ∧ s'.proposal.yes_count = s.proposal.yes_count + 1
          ∧ s'.proposal.no_count = s.proposal.no_count)
      ∨ (choice = false ∧ s'.proposal.no_count = s.proposal.no_count + 1
          ∧ s'.proposal.yes_count = s.proposal.yes_count)) := by
  rw [reveal_vote] at h
  rcases hfind : findRec s.records voter with _ | r
  all_goals rw [hfind] at h
  all_goals simp only [] at h
  · cases h
  by_cases h1 : r.voter ≠ voter
  · rw [if_pos h1] at h
    cases h
  rw [if_neg h1] at h
  by_cases h2 : (!decide (s.proposal.voting_ends_at ≤ now)) = true
  · rw [if_pos h2] at h
    cases h
  rw [if_neg h2] at h
  by_cases h3 : (!decide (now < s.proposal.reveal_ends_at)) = true
  · rw [if_pos h3] at h
    cases h
  rw [if_neg h3] at h
  by_cases h4 : (!r.has_voted) = true
  · rw [if_pos h4] at h
    cases h
  rw [if_neg h4] at h
  have hvt : r.has_voted = true := by
    cases hv : r.has_voted
    · rw [hv] at h4
      exact absurd rfl h4
    · rfl
  by_cases h5 : r.has_revealed = true
  · rw [if_pos h5] at h
    cases h
  rw [if_neg h5] at h
  have hnr : r.has_revealed = false := by
    cases hv : r.has_revealed
    · rfl
    · exact absurd hv h5
  by_cases h6 : r.commitment ≠ compute_vote_commitment choice secret voter
  · rw [if_pos h6] at h
    cases h
  rw [if_neg h6] at h
  by_cases h7 : s.proposal.total_revealed + 1 < 4294967296
  case neg =>
    rw [if_neg h7] at h
    cases h
  rw [if_pos h7] at h
  cases choice
  · rw [if_neg (by simp : ¬ (false = true))] at h
    by_cases h8 : s.proposal.no_count + 1 < 4294967296
    case neg =>
      rw [if_neg h8] at h
      cases h
    rw [if_pos h8] at h
    cases h
    exact ⟨r, rfl, hvt, hnr, rfl, rfl, rfl, Or.inr ⟨rfl, rfl, rfl⟩⟩
  · rw [if_pos rfl] at h
    by_cases h8 : s.proposal.yes_count + 1 < 4294967296
    case neg =>
      rw [if_neg h8] at h
      cases h
    rw [if_pos h8] at h
    cases h
    exact ⟨r, rfl, hvt, hnr, rfl, rfl, rfl, Or.inl ⟨rfl, rfl, rfl⟩⟩

/-- A successful `finalize_proposal` changes neither the counters nor the
records. -/
theorem finalize_ok_shape (s : VotingState) (now : Int) (s' : VotingState)
    (h : finalize_proposal s now = .ok s') :
    s'.records = s.records
    ∧ s'.proposal.total_commitments = s.proposal.total_commitments
    ∧ s'.proposal.total_revealed = s.proposal.total_revealed
    ∧ s'.proposal.yes_count = s.proposal.yes_count
    ∧ s'.proposal.no_count = s.proposal.no_count := by
  rw [finalize_proposal] at h
  repeat' split at h
  all_goals cases h
  exact ⟨rfl, rfl, rfl, rfl, rfl⟩

/-- A successful `create_proposal` zero-initializes all four counters and
starts with no records. -/
theorem create_proposal_ok_shape (pid mh : List Nat) (ve re : Int) (cr key : List Nat)
    (now : Int) (s : VotingState) (h : create_proposal pid mh ve re cr key now = .ok s) :
    s.records = [] ∧ s.proposal.total_commitments = 0 ∧ s.proposal.total_revealed = 0
    ∧ s.proposal.yes_count = 0 ∧ s.proposal.no_count = 0 := by
  rw [create_proposal] at h
  repeat' split at h
  all_goals cases h
  exact ⟨rfl, rfl, rfl, rfl, rfl⟩

/-- The voting invariant holds after `create_proposal`. -/
theorem vinv_create (pid mh : List Nat) (ve re : Int) (cr key : List Nat) (now : Int)
    (s : VotingState) (h : create_proposal pid mh ve re cr key now = .ok s) : VInv s := by
  obtain ⟨hrec, hc, hr, hy, hn⟩ := create_proposal_ok_shape pid mh ve re cr key now s h
  refine ⟨?_, ?_, ?_, ?_, ?_⟩
  · rw [hc, hrec]
    rfl
  · rw [hr, hrec]
    rfl
  · intro p hp
    rw [hrec] at hp
    cases hp
  · rw [hy, hn, hr]
  · rw [hrec]
    exact List.nodup_nil

/-- The voting invariant is preserved by a successful `cast_vote`. -/
theorem vinv_cast (s : VotingState) (voter c : List Nat) (now : Int) (s' : VotingState)
    (hinv : VInv s) (h : cast_vote s voter c now = .ok s') : VInv s' := by
  obtain ⟨hfind, hrec, hc, hr, hy, hn⟩ := cast_vote_ok_shape s voter c now s' h
  obtain ⟨ic, ir, imem, iyn, ind⟩ := hinv
  refine ⟨?_, ?_, ?_, ?_, ?_⟩
  · rw [hc, hrec, List.countP_append, ic]
    simp [recVoted, freshVoteRecord]
  · rw [hr, hrec, List.countP_append, ir]
    simp [recRevealed, freshVoteRecord]
  · intro p hp
    rw [hrec] at hp
    rcases List.mem_append.mp hp with hp | hp
    · exact imem p hp
    · simp only [List.mem_singleton] at hp
      subst hp
      intro hcontra
      cases hcontra
  · rw [hy, hn, hr, iyn]
  · rw [hrec, List.map_append]
    simp only [List.map_cons, List.map_nil]
    rw [List.nodup_append]
    exact ⟨ind, List.nodup_singleton voter,
      by simpa [List.disjoint_singleton] using not_mem_of_findRec_none s.records voter hfind⟩

/-- The voting invariant is preserved by a successful `reveal_vote`. -/
theorem vinv_reveal (s : VotingState) (voter : List Nat) (choice : Bool) (secret : List Nat)
    (now : Int) (s' : VotingState) (ev : VoteRevealedEvent)
    (hinv : VInv s) (h : reveal_vote s voter choice secret now = .ok (s', ev)) : VInv s' := by
  obtain ⟨r, hfind, hvt, hnr, hrec, hc, hr, hchoice⟩ :=
    reveal_vote_ok_shape s voter choice secret now s' ev h
  obtain ⟨ic, ir, imem, iyn, ind⟩ := hinv
  set r2 : VoteRecord :=
    { r with has_revealed := true, revealed_choice := choice, revealed_at := now } with hr2def
  have hcv := countP_setRec s.records voter r2 r recVoted ind hfind
  have hcr := countP_setRec s.records voter r2 r recRevealed ind hfind
  have hv1 : recVoted (voter, r) = true := hvt
  have hv2 : recVoted (voter, r2) = true := hvt
  have hrv1 : ¬ (recRevealed (voter, r) = true) := by
    have hx : recRevealed (voter, r) = false := hnr
    rw [hx]
    exact Bool.false_ne_true
  have hrv2 : recRevealed (voter, r2) = true := rfl
  rw [if_pos hv1, if_pos hv2] at hcv
  rw [if_neg hrv1, if_pos hrv2] at hcr
  refine ⟨?_, ?_, ?_, ?_, ?_⟩
  · rw [hc, hrec, ic]
    omega
  · rw [hr, hrec, ir]
    omega
  · intro p hp
    rw [hrec] at hp
    rcases mem_setRec _ _ _ _ hp with hp | hp
    · subst hp
      intro _
      exact hvt
    · exact imem p hp
  · rcases hchoice with ⟨_, hy2, hn2⟩ | ⟨_, hn2, hy2⟩
    · rw [hy2, hn2, hr]
      omega
    · rw [hy2, hn2, hr]
      omega
  · rw [hrec, map_fst_setRec]
    exact ind

/-- The voting invariant is preserved by a successful
`finalize_proposal`. -/
theorem vinv_finalize (s : VotingState) (now : Int) (s' : VotingState)
    (hinv : VInv s) (h : finalize_proposal s now = .ok s') : VInv s' := by
  obtain ⟨hrec, hc, hr, hy, hn⟩ := finalize_ok_shape s now s' h
  obtain ⟨ic, ir, imem, iyn, ind⟩ := hinv
  refine ⟨?_, ?_, ?_, ?_, ?_⟩
  · rw [hc, hrec, ic]
  · rw [hr, hrec, ir]
  · intro p hp
    rw [hrec] at hp
    exact imem p hp
  · rw [hy, hn, hr, iyn]
  · rw [hrec]
    exact ind

/-- Every reachable voting state satisfies the invariant. -/
theorem vinv_reach (s : VotingState) (h : VReach s) : VInv s := by
  induction h with
  | created pid mh ve re cr key now s hok => exact vinv_create pid mh ve re cr key now s hok
  | cast s voter c now s' _ hok ih => exact vinv_cast s voter c now s' ih hok
  | revealed s voter ch sec now s' ev _ hok ih => exact vinv_reveal s voter ch sec now s' ev ih hok
  | finalized s now s' _ hok ih => exact vinv_finalize s now s' ih hok

/-- C3: in every reachable state of a proposal, the yes and no tallies
sum to the revealed counter, which never exceeds the commitment counter;
`create_proposal` establishes it with all four counters zero and
`cast_vote`, `reveal_vote`, `finalize_proposal` preserve it. -/
theorem voting_tally_invariant (s : VotingState) (h : VReach s) :
    s.proposal.yes_count + s.proposal.no_count = s.proposal.total_revealed
    ∧ s.proposal.total_revealed ≤ s.proposal.total_commitments := by
  obtain ⟨ic, ir, imem, iyn, _⟩ := vinv_reach s h
  refine ⟨iyn, ?_⟩
  rw [ic, ir]
  exact List.countP_mono_left (fun a ha hrev => imem a ha hrev)

/-- Witness for C3: the invariant holds at the concrete state created by
`create_proposal` at time 0. -/
theorem voting_tally_invariant_witness :
    vsEx.proposal.yes_count + vsEx.proposal.no_count = vsEx.proposal.total_revealed
    ∧ vsEx.proposal.total_revealed ≤ vsEx.proposal.total_commitments :=
  voting_tally_invariant vsEx
    (VReach.created zero32 zero32 10 20 zero32 zero32 0 vsEx (by decide))

/-- A successful `create_multisig` validates the threshold against the
signer count and the fixed capacity 10. -/
theorem create_multisig_ok_shape (vid : List Nat) (th : Nat) (scs : List (List Nat))
    (cr : List Nat) (now : Int) (m : StealthMultisig)
    (h : create_multisig vid th scs cr now = .ok m) :
    0 < m.threshold ∧ m.threshold ≤ m.total_signers ∧ m.total_signers ≤ 10 := by
  rw [create_multisig] at h
  repeat' split at h
  all_goals cases h
  refine ⟨?_, ?_, ?_⟩ <;> (simp_all; try omega)

/-- A successful `create_multisig_proposal` keeps the vault limits and
produces a fresh proposal with zero approvals and 10 zero slots. -/
theorem create_multisig_proposal_ok_shape (m : StealthMultisig) (pid ih msKey : List Nat)
    (now : Int) (m2 : StealthMultisig) (p : MultisigProposal)
    (h : create_multisig_proposal m pid ih msKey now = .ok (m2, p)) :
    m2.threshold = m.threshold ∧ m2.total_signers = m.total_signers
    ∧ p.approval_count = 0 ∧ p.approval_commitments.length = 10 := by
  rw [create_multisig_proposal] at h
  repeat' split at h
  all_goals cases h
  exact ⟨rfl, rfl, rfl, by simp⟩

/-- A successful `stealth_sign` requires a not-yet-executed proposal
below the threshold and appends exactly one approval at the old count. -/
theorem stealth_sign_ok_shape (m : StealthMultisig) (p : MultisigProposal)
    (sp ac : List Nat) (p' : MultisigProposal) (h : stealth_sign m p sp ac = .ok p') :
    p.is_executed = false ∧ p.approval_count < m.threshold
    ∧ p'.approval_count = p.approval_count + 1
    ∧ p'.approval_commitments = p.approval_commitments.set p.approval_count ac := by
  rw [stealth_sign] at h
  repeat' split at h
  all_goals cases h
  have hex : ¬ (p.is_executed = true) := by assumption
  have hlt : ¬ ((!decide (p.approval_count < m.threshold)) = true) := by assumption
  refine ⟨?_, ?_, rfl, rfl⟩
  · cases hx : p.is_executed
    · rfl
    · exact absurd hx hex
  · simpa using hlt

/-- A successful `execute_multisig_proposal` changes neither the approval
count nor the approval slots. -/
theorem execute_ok_shape (m : StealthMultisig) (p : MultisigProposal) (now : Int)
    (p' : MultisigProposal) (h : execute_multisig_proposal m p now = .ok p') :
    p'.approval_count = p.approval_count
    ∧ p'.approval_commitments = p.approval_commitments := by
  rw [execute_multisig_proposal] at h
  repeat' split at h
  all_goals cases h
  exact ⟨rfl, rfl⟩

/-- Every reachable (vault, proposal) pair satisfies the
multisig-capacity invariant. -/
theorem msinv_reach (mp : StealthMultisig × MultisigProposal) (h : MsReach mp) : MsInv mp := by
  induction h with
  | started vid th scs cr now m m2 pid ih msKey now2 p hcm hcp =>
    obtain ⟨h1, h2, h3⟩ := create_multisig_ok_shape vid th scs cr now m hcm
    obtain ⟨e1, e2, e3, e4⟩ := create_multisig_proposal_ok_shape m pid ih msKey now2 m2 p hcp
    refine ⟨?_, ?_, ?_, ?_⟩ <;> dsimp only
    · omega
    · omega
    · omega
    · exact e4
  | signed m p sp ac p' _ hok ih =>
    obtain ⟨i1, i2, i3, i4⟩ := ih
    obtain ⟨s1, s2, s3, s4⟩ := stealth_sign_ok_shape m p sp ac p' hok
    dsimp only at i1 i2 i3 i4
    refine ⟨?_, ?_, ?_, ?_⟩ <;> dsimp only
    · omega
    · exact i2
    · exact i3
    · rw [s4, List.length_set]
      exact i4
  | executed m p now p' _ hok ih =>
    obtain ⟨i1, i2, i3, i4⟩ := ih
    obtain ⟨e1, e2⟩ := execute_ok_shape m p now p' hok
    dsimp only at i1 i2 i3 i4
    refine ⟨?_, ?_, ?_, ?_⟩ <;> dsimp only
    · omega
    · exact i2
    · exact i3
    · rw [e2]
      exact i4

/-- C10: in every reachable state, a proposal's approval count is at
most its vault's threshold, which is at most the signer count, which is
at most 10; the approval slot array keeps length 10; hence
`stealth_sign`'s duplicate scan over indices below the count and its
write at index `approval_count` (possible only while the count is below
the threshold) stay within the fixed capacity of 10 slots. -/
theorem multisig_capacity_invariant (mp : StealthMultisig × MultisigProposal)
    (h : MsReach mp) :
    mp.2.approval_count ≤ mp.1.threshold
    ∧ mp.1.threshold ≤ mp.1.total_signers
    ∧ mp.1.total_signers ≤ 10
    ∧ mp.2.approval_commitments.length = 10
    ∧ (∀ sp ac p', stealth_sign mp.1 mp.2 sp ac = .ok p' → mp.2.approval_count < 10) := by
  obtain ⟨i1, i2, i3, i4⟩ := msinv_reach mp h
  refine ⟨i1, i2, i3, i4, ?_⟩
  intro sp ac p' hok
  obtain ⟨_, hlt, _, _⟩ := stealth_sign_ok_shape mp.1 mp.2 sp ac p' hok
  omega

/-- Witness for C10: the invariant holds for the concrete vault and
fresh proposal reached by `create_multisig` then
`create_multisig_proposal`. -/
theorem multisig_capacity_invariant_witness :
    mpEx.approval_count ≤ msEx2.threshold
    ∧ msEx2.threshold ≤ msEx2.total_signers
    ∧ msEx2.total_signers ≤ 10
    ∧ mpEx.approval_commitments.length = 10
    ∧ (∀ sp ac p', stealth_sign msEx2 mpEx sp ac = .ok p' → mpEx.approval_count < 10) :=
  multisig_capacity_invariant (msEx2, mpEx)
    (MsReach.started zero32 1 [sc1, sc2] zero32 0 msEx1 msEx2 zero32 zero32 zero32 0 mpEx
      (by decide) (by decide))

theorem beNat_foldl (l : List Nat) (init : Nat) :
    l.foldl (fun acc b => acc * 256 + b) init = init * 256 ^ l.length + beNat l := by
  induction l generalizing init with
  | nil => simp [beNat]
  | cons b t ih =>
    have h1 := ih (init * 256 + b)
    have h2 := ih b
    simp only [beNat, List.foldl_cons, List.length_cons, Nat.zero_mul, Nat.zero_add] at *
    rw [h1, h2]
    ring

theorem beNat_cons (b : Nat) (t : List Nat) :
    beNat (b :: t) = b * 256 ^ t.length + beNat t := by
  have := beNat_foldl t b
  simp only [beNat, List.foldl_cons, Nat.zero_mul, Nat.zero_add]
  exact this

theorem beNat_lt_pow (l : List Nat) (h : ∀ x ∈ l, x < 256) :
    beNat l < 256 ^ l.length := by
  induction l with
  | nil => simp [beNat]
  | cons b t ih =>
    rw [beNat_cons, List.length_cons]
    have hb : b < 256 := h b (List.mem_cons_self _ _)
    have ht := ih (fun x hx => h x (List.mem_cons_of_mem _ hx))
    calc b * 256 ^ t.length + beNat t < b * 256 ^ t.length + 256 ^ t.length := by omega
      _ = (b + 1) * 256 ^ t.length := by ring
      _ ≤ 256 * 256 ^ t.length := Nat.mul_le_mul_right _ (by omega)
      _ = 256 ^ (t.length + 1) := by ring

theorem lexLt_iff_beNat_lt (a : List Nat) (b : List Nat) (hlen : a.length = b.length)
    (ha : ∀ x ∈ a, x < 256) (hb : ∀ x ∈ b, x < 256) :
    lexLtBytes a b = true ↔ beNat a < beNat b := by
  induction a generalizing b with
  | nil =>
    cases b with
    | nil => simp [lexLtBytes, beNat]
    | cons y ys => simp at hlen
  | cons x xs ih =>
    cases b with
    | nil => simp at hlen
    | cons y ys =>
      simp only [List.length_cons, Nat.add_right_cancel_iff] at hlen
      rw [lexLtBytes, beNat_cons, beNat_cons, hlen]
      have hxv : x < 256 := ha x (List.mem_cons_self _ _)
      have hyv : y < 256 := hb y (List.mem_cons_self _ _)
      have hxs := beNat_lt_pow xs (fun z hz => ha z (List.mem_cons_of_mem _ hz))
      have hys := beNat_lt_pow ys (fun z hz => hb z (List.mem_cons_of_mem _ hz))
      rw [hlen] at hxs
      by_cases h1 : x < y
      · simp only [h1, if_true, true_iff]
        calc x * 256 ^ ys.length + beNat xs < x * 256 ^ ys.length + 256 ^ ys.length := by omega
          _ = (x + 1) * 256 ^ ys.length := by ring
          _ ≤ y * 256 ^ ys.length := Nat.mul_le_mul_right _ (by omega)
          _ ≤ y * 256 ^ ys.length + beNat ys := Nat.le_add_right _ _
      · by_cases h2 : y < x
        · simp only [h1, if_false, h2, if_true, Bool.false_eq_true, false_iff]
          have hcalc : y * 256 ^ ys.length + beNat ys < x * 256 ^ ys.length + beNat xs :=
            calc y * 256 ^ ys.length + beNat ys
                < y * 256 ^ ys.length + 256 ^ ys.length := by omega
              _ = (y + 1) * 256 ^ ys.length := by ring
              _ ≤ x * 256 ^ ys.length := Nat.mul_le_mul_right _ (by omega)
              _ ≤ x * 256 ^ ys.length + beNat xs := Nat.le_add_right _ _
          omega
        · have hxy : x = y := by omega
          subst hxy
          simp only [h1, if_false, h2]
          rw [ih ys hlen (fun z hz => ha z (List.mem_cons_of_mem _ hz))
            (fun z hz => hb z (List.mem_cons_of_mem _ hz))]
          omega

theorem verify_field_element_iff (x : List Nat) (hx : ∀ b ∈ x, b < 256) :
    verify_field_element x = true ↔ x.length = 32 ∧ beNat x < beNat BN128_MODULUS := by
  rw [verify_field_element]
  by_cases hl : x.length = 32
  · simp only [hl, if_true, true_and]
    exact lexLt_iff_beNat_lt x BN128_MODULUS (by rw [hl]; rfl) hx (by decide)
  · simp [hl]

set_option maxHeartbeats 1600000 in
/-- Every error `submit_proof` can raise is of the spec's
StructuralValidation kind. -/
theorem submit_proof_errors_structural (w : WalletAccount) (pd : List Nat)
    (ps : List (List Nat)) (e : VeilError) (h : submit_proof w pd ps = .error e) :
    isStructuralValidation e = true := by
  rw [submit_proof] at h
  simp only [] at h
  by_cases c1 : pd.length < 256
  · rw [if_pos c1] at h
    cases h
    rfl
  rw [if_neg c1] at h
  by_cases c2 : ps.length < 1
  · rw [if_pos c2] at h
    cases h
    rfl
  rw [if_neg c2] at h
  by_cases c3 : (!(verify_field_element ((pd.take 64).take 32)
      && verify_field_element (((pd.take 64).drop 32).take 32))) = true
  · rw [if_pos c3] at h
    cases h
    rfl
  rw [if_neg c3] at h
  by_cases c4 : (!(verify_field_element (((pd.drop 192).take 64).take 32)
      && verify_field_element ((((pd.drop 192).take 64).drop 32).take 32))) = true
  · rw [if_pos c4] at h
    cases h
    rfl
  rw [if_neg c4] at h
  by_cases c5 : (ps.any fun s => !(verify_field_element s)) = true
  · rw [if_pos c5] at h
    cases h
    rfl
  rw [if_neg c5] at h
  by_cases c6 : ps.getD 0 zero32 ≠ w.commitment
  · rw [if_pos c6] at h
    cases h
    rfl
  rw [if_neg c6] at h
  by_cases c7 : compute_proof_hash pd ps = zero32
  · rw [if_pos c7] at h
    cases h
    rfl
  rw [if_neg c7] at h
  cases h

set_option maxHeartbeats 1600000 in
/-- C9: `submit_proof` requires a non-empty proof blob (the 256-byte
structural bound subsumes non-emptiness), a non-empty public signal
list, every signal to be a valid field element, and the first signal to
equal the wallet's stored commitment; a valid field element is exactly a
32-byte string whose big-endian value is strictly below the BN128
modulus (equality is invalid); violating any requirement fails the call
with a StructuralValidation-kind error, and the handler writes no state
in any case. -/
theorem submit_proof_structural_gate (w : WalletAccount) (pd : List Nat)
    (ps : List (List Nat)) :
    (∀ x : List Nat, (∀ b ∈ x, b < 256) →
      (verify_field_element x = true ↔ x.length = 32 ∧ beNat x < beNat BN128_MODULUS))
    ∧ (∀ e, submit_proof w pd ps = .error e → isStructuralValidation e = true)
    ∧ ((pd = [] ∨ ps = [] ∨ (∃ x ∈ ps, verify_field_element x = false)
        ∨ (∃ x, ps.head? = some x ∧ x ≠ w.commitment)) →
      ∃ e, submit_proof w pd ps = .error e ∧ isStructuralValidation e = true) := by
  refine ⟨fun x hx => verify_field_element_iff x hx,
    fun e he => submit_proof_errors_structural w pd ps e he, ?_⟩
  intro hviol
  rcases hres : submit_proof w pd ps with e | u
  · exact ⟨e, rfl, submit_proof_errors_structural w pd ps e hres⟩
  exfalso
  rw [submit_proof] at hres
  simp only [] at hres
  by_cases c1 : pd.length < 256
  · rw [if_pos c1] at hres
    cases hres
  rw [if_neg c1] at hres
  by_cases c2 : ps.length < 1
  · rw [if_pos c2] at hres
    cases hres
  rw [if_neg c2] at hres
  by_cases c3 : (!(verify_field_element ((pd.take 64).take 32)
      && verify_field_element (((pd.take 64).drop 32).take 32))) = true
  · rw [if_pos c3] at hres
    cases hres
  rw [if_neg c3] at hres
  by_cases c4 : (!(verify_field_element (((pd.drop 192).take 64).take 32)
      && verify_field_element ((((pd.drop 192).take 64).drop 32).take 32))) = true
  · rw [if_pos c4] at hres
    cases hres
  rw [if_neg c4] at hres
  by_cases c5 : (ps.any fun s => !(verify_field_element s)) = true
  · rw [if_pos c5] at hres
    cases hres
  rw [if_neg c5] at hres
  by_cases c6 : ps.getD 0 zero32 ≠ w.commitment
  · rw [if_pos c6] at hres
    cases hres
  rw [if_neg c6] at hres
  rcases hviol with h | h | ⟨x, hx, hxf⟩ | ⟨x, hx, hxc⟩
  · subst h
    simp at c1
  · subst h
    simp at c2
  · exact c5 (List.any_eq_true.mpr ⟨x, hx, by simp [hxf]⟩)
  · have hne : ps ≠ [] := by
      intro hempty
      rw [hempty] at hx
      cases hx
    have hgd : ps.getD 0 zero32 = x := by
      cases ps with
      | nil => exact absurd rfl hne
      | cons z zs =>
        simp only [List.head?_cons, Option.some.injEq] at hx
        simp [hx]
    exact hxc (by rw [← hgd]; exact Classical.not_not.mp (fun hc => c6 (fun hh => hc hh)))

/-- Witness for C9: an empty proof blob fails with the
StructuralValidation error `InvalidProofStructure`, and the
field-element characterization holds for the all-zero 32-byte string. -/
theorem submit_proof_structural_gate_witness :
    isStructuralValidation .InvalidProofStructure = true
    ∧ (verify_field_element zero32 = true ↔
        zero32.length = 32 ∧ beNat zero32 < beNat BN128_MODULUS) :=
  ⟨(submit_proof_structural_gate w9 [] []).2.1 .InvalidProofStructure (by decide),
   (submit_proof_structural_gate w9 [] []).1 zero32 (by decide)⟩

end Veil
